import Mathlib

/-!
Verification development for the arduino-cli-cmake-wrapper log-mining engine.

The Python sources embedded here are `src/arduino_cli_cmake_wrapper/miner.py`,
`src/arduino_cli_cmake_wrapper/parse.py` and `src/arduino_cli_cmake_wrapper/util.py`.
Pure functions are translated into executable Lean definitions; exceptions are
modelled with `Except PyError`.  The module `types.py` (the `Source` and `Stage`
enumerations, the exception classes and `FilterProtocol`) is not present in the
sources, so those few definitions are modelled from the specification and are
marked as such in their doc comments.
-/

set_option maxRecDepth 10000

/-- The kinds of compilation units.  Modelled from the spec: `types.py` is
absent from the sources; the spec lists assembly, C, C++ and the primary
sketch (`.ino`) unit.  The list `sourceUniverse` below fixes an iteration
order for `for source in Source`. -/
inductive Source
  | S
  | C
  | CPP
  | INO
deriving DecidableEq, Repr

/-- Modelled from the spec: iteration order of the `Source` enumeration
(assembly, C, C++, sketch). -/
def sourceUniverse : List Source := [Source.S, Source.C, Source.CPP, Source.INO]

/-- The build phases.  Modelled from the spec: `types.py` is absent from the
sources; the spec lists compilation, core/archive build, and link. -/
inductive Stage
  | COMPILATION
  | CORE
  | LINK
deriving DecidableEq, Repr

/-- The exceptions raised by the Python code, as one error type.
`valueError` covers `ValueError` (bad shell quoting, `list.index` misses),
`indexError` covers `IndexError` (`list(...)[0]` on an empty list),
`missingStage`/`multipleInvocation`/`arduinoCLI` model the exception classes
of the absent `types.py` module (modelled from the spec), `assertionError`
models a failing `assert`, and `genericExc` a bare `Exception`. -/
inductive PyError
  | valueError (msg : String)
  | indexError
  | missingStage (stage : Stage)
  | multipleInvocation
  | arduinoCLI (msg : String)
  | assertionError (msg : String)
  | genericExc (msg : String)
deriving DecidableEq, Repr

/-- A parsed-and-annotated build log: for each stage, its list of lines
(`Dict[Stage, List[str]]`; `none` models a key that is absent). -/
def Stages : Type := Stage → Option (List String)

/-- `stages.get(stage, [])`. -/
def stagesGet (stages : Stages) (stage : Stage) : List String :=
  (stages stage).getD []

/-! ## A regex engine for the pattern subset the program uses

`util.match_any` / `util.match_all` compile their arguments with `re.compile`
and use `.search`.  The patterns that occur in the program are built from
literal characters, `\`-escaped literals, `.` (any character), the `^` and `$`
anchors, and a character class `[...]` whose members are literal characters
(note that inside a class Python treats `$` and `|` as the literal characters).
The engine below implements exactly that subset with Python's `search`
semantics (try every start position, leftmost success wins). -/

/-- One element of a compiled pattern. -/
inductive RTok
  | lit (c : Char)
  | anyc
  | cls (cs : List Char)
  | startA
  | endA
deriving DecidableEq, Repr

/-- Pattern compiler.  The second argument is `some acc` while scanning the
members of a `[...]` class.  The patterns used by the program are all
well-formed, so the recovery choices for malformed patterns (unterminated
class, dangling backslash) are never exercised. -/
def parsePatAux : List Char → Option (List Char) → List RTok
  | [], none => []
  | [], some acc => [RTok.cls acc]
  | c :: cs, some acc =>
    if c = ']' then RTok.cls acc :: parsePatAux cs none
    else parsePatAux cs (some (acc ++ [c]))
  | c :: cs, none =>
    if c = '\\' then
      match cs with
      | [] => [RTok.lit '\\']
      | d :: ds => RTok.lit d :: parsePatAux ds none
    else if c = '[' then parsePatAux cs (some [])
    else if c = '.' then RTok.anyc :: parsePatAux cs none
    else if c = '^' then RTok.startA :: parsePatAux cs none
    else if c = '$' then RTok.endA :: parsePatAux cs none
    else RTok.lit c :: parsePatAux cs none

/-- Compile a pattern string. -/
def parsePat (pat : String) : List RTok :=
  parsePatAux pat.data none

/-- Match a compiled pattern against a fixed position of the subject.
`atStart` records whether the position is the start of the subject (for `^`);
`$` matches only at the very end (the program's subjects never end in a
newline, so Python's `$`-before-final-newline rule is not needed). -/
def matchAt : List RTok → List Char → Bool → Bool
  | [], _, _ => true
  | RTok.startA :: ts, cs, atStart => atStart && matchAt ts cs atStart
  | RTok.endA :: ts, cs, _ => cs.isEmpty && matchAt ts cs false
  | RTok.lit _ :: _, [], _ => false
  | RTok.lit c :: ts, d :: cs, _ => c == d && matchAt ts cs false
  | RTok.anyc :: _, [], _ => false
  | RTok.anyc :: ts, _ :: cs, _ => matchAt ts cs false
  | RTok.cls _ :: _, [], _ => false
  | RTok.cls l :: ts, d :: cs, _ => l.contains d && matchAt ts cs false

/-- `re.search(pattern, item) is not None`: the pattern matches at some
position of the subject. -/
def reSearch (pat : String) (item : String) : Bool :=
  let toks := parsePat pat
  (List.range (item.data.length + 1)).any
    (fun i => matchAt toks (item.data.drop i) (i == 0))

/-- `util.match_any`: true iff the item matches any pattern in the list. -/
def match_any (pats : List String) (item : String) : Bool :=
  pats.any (fun pat => reSearch pat item)

/-- `util.match_all`: true iff the item matches all patterns in the list. -/
def match_all (pats : List String) (item : String) : Bool :=
  pats.all (fun pat => reSearch pat item)

/-! ## Small string helpers (Python semantics) -/

/-- `pat` occurs as a contiguous sublist of `l` (Python's `in` on strings). -/
def subList (pat : List Char) : List Char → Bool
  | [] => pat.isEmpty
  | c :: cs => pat.isPrefixOf (c :: cs) || subList pat cs

/-- Python `sub in s`. -/
def strContains (s sub : String) : Bool :=
  subList sub.data s.data

/-- Python `s.endswith(suffix)`. -/
def strEndsWith (s suffix : String) : Bool :=
  suffix.data.isSuffixOf s.data

/-- Python `token[:2]` (slicing counts code points). -/
def pyTake2 (s : String) : String :=
  String.mk (s.data.take 2)

/-- Python `str.strip()` whitespace (the ASCII part; the log lines contain no
exotic unicode whitespace). -/
def pyIsStripWs (c : Char) : Bool :=
  c == ' ' || c == '\t' || c == '\n' || c == '\r' || c == '\x0b' || c == '\x0c'

/-- Python `line.strip()`. -/
def pyStrip (s : String) : String :=
  String.mk (((s.data.dropWhile pyIsStripWs).reverse.dropWhile pyIsStripWs).reverse)

/-- The final `/`-separated component of a character list (accumulator holds
the component read so far). -/
def lastComponent (cur : List Char) : List Char → List Char
  | [] => cur
  | c :: cs => if c = '/' then lastComponent [] cs else lastComponent (cur ++ [c]) cs

/-- `pathlib.Path(p).name`: the final path component (for the well-formed
relative/absolute paths the program passes; `Path`'s normalisation of trailing
slashes is not needed). -/
def pathName (p : String) : String :=
  String.mk (lastComponent [] p.data)

/-! ## Shell tokenizer (`shlex.split`, posix mode, whitespace_split)

`util.safe_split` calls `shlex.split(line.strip())`; `parse.py` calls
`shlex.split` directly.  The state machine below implements the POSIX rules of
`shlex.split`: whitespace separates tokens, `'...'` is literal, `"..."` allows
`\"` and `\\` escapes (a backslash before any other character is kept), and a
bare backslash escapes the next character.  An unbalanced quote or a trailing
backslash raises `ValueError`, modelled as `none`. -/

/-- `shlex.whitespace`. -/
def isShWs (c : Char) : Bool :=
  c == ' ' || c == '\t' || c == '\r' || c == '\n'

/-- Lexer state: outside quotes, inside `'...'`, inside `"..."`, after a
backslash outside quotes, or after a backslash inside `"..."`. -/
inductive LexState
  | normal
  | single
  | double
  | escaped
  | dquoteEscaped
deriving DecidableEq, Repr

/-- Append the pending token, if any, to the accumulator. -/
def pushTok (cur : Option (List Char)) (acc : List (List Char)) : List (List Char) :=
  match cur with
  | none => acc
  | some t => acc ++ [t]

/-- The `shlex` state machine.  `cur = some t` while a token is being built
(`some []` after an empty quoted string, which yields an empty token). -/
def shlexAux : List Char → LexState → Option (List Char) → List (List Char) →
    Option (List (List Char))
  | [], LexState.normal, cur, acc => some (pushTok cur acc)
  | [], _, _, _ => none
  | c :: cs, LexState.normal, cur, acc =>
    if isShWs c then shlexAux cs LexState.normal none (pushTok cur acc)
    else if c = '\'' then shlexAux cs LexState.single (some (cur.getD [])) acc
    else if c = '"' then shlexAux cs LexState.double (some (cur.getD [])) acc
    else if c = '\\' then shlexAux cs LexState.escaped (some (cur.getD [])) acc
    else shlexAux cs LexState.normal (some (cur.getD [] ++ [c])) acc
  | c :: cs, LexState.single, cur, acc =>
    if c = '\'' then shlexAux cs LexState.normal cur acc
    else shlexAux cs LexState.single (some (cur.getD [] ++ [c])) acc
  | c :: cs, LexState.double, cur, acc =>
    if c = '"' then shlexAux cs LexState.normal cur acc
    else if c = '\\' then shlexAux cs LexState.dquoteEscaped cur acc
    else shlexAux cs LexState.double (some (cur.getD [] ++ [c])) acc
  | c :: cs, LexState.escaped, cur, acc =>
    shlexAux cs LexState.normal (some (cur.getD [] ++ [c])) acc
  | c :: cs, LexState.dquoteEscaped, cur, acc =>
    if c = '"' || c = '\\' then shlexAux cs LexState.double (some (cur.getD [] ++ [c])) acc
    else shlexAux cs LexState.double (some (cur.getD [] ++ ['\\', c])) acc

/-- `shlex.split(s)` (posix, whitespace_split): `none` on a quoting error. -/
def shlexSplit (s : String) : Option (List String) :=
  (shlexAux s.data LexState.normal none []).map (fun ts => ts.map String.mk)

/-- `shlex.split` as used directly by `parse.py`, with `ValueError` made
explicit. -/
def shlex_split_exc (line : String) : Except PyError (List String) :=
  match shlexSplit line with
  | some ts => Except.ok ts
  | none => Except.error (PyError.valueError "No closing quotation or escaped character")

instance {ε α : Type} [DecidableEq ε] [DecidableEq α] : DecidableEq (Except ε α)
  | Except.ok a, Except.ok b =>
    if h : a = b then isTrue (by rw [h]) else isFalse (by simp [h])
  | Except.ok _, Except.error _ => isFalse (by simp)
  | Except.error _, Except.ok _ => isFalse (by simp)
  | Except.error e, Except.error f =>
    if h : e = f then isTrue (by rw [h]) else isFalse (by simp [h])

/-- `util.safe_split`: split `line.strip()` by shell rules; on error return
`[]` when `ignore_errors`, otherwise re-raise the `ValueError` with the line
attached. -/
def safe_split (line : String) (ignore_errors : Bool) : Except PyError (List String) :=
  match shlexSplit (pyStrip line) with
  | some ts => Except.ok ts
  | none =>
    if ignore_errors then Except.ok []
    else Except.error (PyError.valueError ("shlex error in '" ++ line ++ "'"))

/-! ## `miner.py`: the token filter algebra -/

/-- The value side of the flag table `Dict[str, Union[bool, Callable]]`:
either a boolean (`True` = the flag always consumes the next token) or a
predicate tested on the previous token. -/
inductive FlagCheck
  | const (b : Bool)
  | pred (p : String → Bool)

/-- A flag table: flag pattern (e.g. `-c`) to its `FlagCheck`. -/
def FlagTable : Type := List (String × FlagCheck)

/-- The flags of the table that consume their following token given the
previous token: `(callable(check) and check(previous)) or
(not callable(check) and check)`. -/
def consumingFlags (flags : FlagTable) (previous : String) : List String :=
  (flags.filter (fun fc =>
    match fc.2 with
    | FlagCheck.const b => b
    | FlagCheck.pred p => p previous)).map (fun fc => fc.1)

/-- The un-negated decision of `filter_by_flags.filterer`: the token matches a
flag by its first two characters, or the previous token is a flag that
consumes its argument. -/
def filtererVal (flags : FlagTable) (token previous : String) : Bool :=
  match_any (flags.map (fun fc => fc.1)) (pyTake2 token) ||
    match_any (consumingFlags flags previous) (pyTake2 previous)

/-- Recursion for `filter_by_flags`, carrying the previous token
(`tokens[max(0, index - 1)]`; for the first token the previous token is the
token itself).  A token is kept iff `not filterer(token, previous)`, and
`filterer` returns `not value if negate else value`. -/
def fbfAux (flags : FlagTable) (negate : Bool) : String → List String → List String
  | _, [] => []
  | prev, t :: ts =>
    if (if negate then filtererVal flags t prev else !filtererVal flags t prev) then
      t :: fbfAux flags negate t ts
    else fbfAux flags negate t ts

/-- `miner.filter_by_flags`: remove the matching flags (and the arguments they
consume) from the tokens; with `negate`, keep only those. -/
def filter_by_flags (flags : FlagTable) (tokens : List String) (negate : Bool) : List String :=
  match tokens with
  | [] => []
  | t :: _ => fbfAux flags negate t tokens

/-- The per-index decision values of `filter_by_flags.filterer` (un-negated),
used to state the partition property. -/
def flagDecisionsAux (flags : FlagTable) : String → List String → List Bool
  | _, [] => []
  | prev, t :: ts => filtererVal flags t prev :: flagDecisionsAux flags t ts

/-- The decision list for a whole token sequence. -/
def flagDecisions (flags : FlagTable) (tokens : List String) : List Bool :=
  match tokens with
  | [] => []
  | t :: _ => flagDecisionsAux flags t tokens

/-- `miner.filter_by_filenames`: drop every token matching any of the filename
patterns; with `negate`, keep only those. -/
def filter_by_filenames (filenames : List String) (tokens : List String) (negate : Bool) :
    List String :=
  tokens.filter (fun token =>
    !(if negate then !match_any filenames token else match_any filenames token))

/-! ## `miner.py`: line sorting and identification -/

/-- `miner.real_source_names`: the on-disk name per source kind; the `.ino`
sketch gets its wrapper extension `.cpp` appended.  Source maps are modelled
as insertion-ordered association lists, like Python dicts. -/
def real_source_names (source_mappings : List (Source × String)) : List (Source × String) :=
  source_mappings.map (fun sv =>
    (sv.1, if sv.1 ≠ Source.INO then pathName sv.2 else pathName sv.2 ++ ".cpp"))

/-- `dict.get(key)` on an association list. -/
def alistGet (l : List (Source × String)) (s : Source) : Option String :=
  (l.find? (fun p => p.1 == s)).map (fun p => p.2)

/-- Python renders `None` into an f-string as the text `None`; `build_tokens`
interpolates `real_names.get(source)` without checking for absence. -/
def realNameOr (real_names : List (Source × String)) (s : Source) : String :=
  (alistGet real_names s).getD "None"

/-- Modelled from the spec: `FilterProtocol.pass_all` from the absent
`types.py`, the default filter of `sort_line`.  The spec's `sortLine`
property — `(head, rest, [])` with default filters — forces the empty-criteria
filter: all tokens pass, so the negated application keeps none. -/
def pass_all (tokens : List String) (negate : Bool) : List String :=
  if negate then [] else tokens

/-- `miner.sort_line`: tokenize the line, clean it, and return the head token
together with the sort filter's kept and dropped partitions of the tail.
Raises `ArduinoCLIException('No tokens available')` when cleaning leaves no
tokens.  The `clean` filter is only ever called without `negate`, so it is
typed as a one-argument function. -/
def sort_line (line : String) (clean : Option (List String → List String))
    (sort : Option (List String → Bool → List String)) :
    Except PyError (String × List String × List String) :=
  let cleanF := clean.getD (fun ts => pass_all ts false)
  let sortF := sort.getD pass_all
  match safe_split line false with
  | Except.error e => Except.error e
  | Except.ok raw =>
    match cleanF raw with
    | [] => Except.error (PyError.arduinoCLI "No tokens available")
    | t :: ts => Except.ok (t, sortF ts false, sortF ts true)

/-- `miner.identify_line`: the lines of the stage that satisfy `match`;
none → `MissingStageException(stage)`; more than one while `single` →
`MultipleInvocationException` (the Python code also prints the candidates);
otherwise the first match. -/
def identify_line (stage : Stage) (stages : Stages) (mf : String → Bool)
    (single : Bool) : Except PyError String :=
  let stage_lines := stagesGet stages stage
  match stage_lines.filter mf with
  | [] => Except.error (PyError.missingStage stage)
  | m :: ms =>
    if single && decide (0 < ms.length) then Except.error PyError.multipleInvocation
    else Except.ok m

/-- `miner.identify_link_line`: the unique LINK-stage line containing every
per-source object name. -/
def identify_link_line (stages : Stages) (source_objects : List String) :
    Except PyError String :=
  identify_line Stage.LINK stages (match_all source_objects) true

/-- `miner.identify_archive_line`: a CORE-stage line matching `core\.a`,
multiplicity tolerated (`single=False`). -/
def identify_archive_line (stages : Stages) : Except PyError String :=
  identify_line Stage.CORE stages (match_all ["core\\.a"]) false

/-! ## `miner.py`: recipe extractors -/

/-- `path.replace('-I', '')` — Python `str.replace` removes every
non-overlapping occurrence of `-I`, scanning left to right (specialised to
the constant pattern the source uses). -/
def replaceDashI : List Char → List Char
  | [] => []
  | [c] => [c]
  | c :: d :: cs =>
    if c == '-' && d == 'I' then replaceDashI cs
    else c :: replaceDashI (d :: cs)

/-- String version of `replaceDashI`. -/
def pythonReplaceDashI (s : String) : String :=
  String.mk (replaceDashI s.data)

/-- The include-path comprehension of `build_tokens`:
`[path.replace('-I', '') for path in sorted[2] if path != '-I']`. -/
def includePaths (paths : List String) : List String :=
  (paths.filter (fun path => path ≠ "-I")).map (fun path => pythonReplaceDashI path)

/-- `map` over a list with `Except`-propagation (a `for`/comprehension whose
body may raise). -/
def mapME {α β : Type} (f : α → Except PyError β) : List α → Except PyError (List β)
  | [] => Except.ok []
  | a :: as_ =>
    match f a with
    | Except.error e => Except.error e
    | Except.ok b =>
      match mapME f as_ with
      | Except.error e => Except.error e
      | Except.ok bs => Except.ok (b :: bs)

/-- The `cleaner` closure of `build_tokens`: drop `-c`, `-o` and its argument,
then every token matching a real source filename. -/
def buildCleaner (real_names : List (Source × String)) (items : List String) : List String :=
  filter_by_filenames (real_names.map (fun p => p.2))
    (filter_by_flags [("-c", FlagCheck.const false), ("-o", FlagCheck.const true)] items false)
    false

/-- The `sorter` of `build_tokens`:
`partial(filter_by_flags, {'-I': lambda item: item == '-I'})`. -/
def buildSorter (tokens : List String) (negate : Bool) : List String :=
  filter_by_flags [("-I", FlagCheck.pred (fun item => item == "-I"))] tokens negate

/-- `miner.build_tokens`: per source kind, locate its compilation line by the
pattern `f'{real_names.get(source)}[ |$]'`, clean and sort it, and return
(tool, include paths, other flags), each keyed by source kind. -/
def build_tokens (stages : Stages) (sources : List (Source × String)) :
    Except PyError
      (List (Source × String) × List (Source × List String) × List (Source × List String)) :=
  let real_names := real_source_names sources
  match mapME (fun source =>
      match identify_line Stage.COMPILATION stages
          (match_all [realNameOr real_names source ++ "[ |$]"]) true with
      | Except.error e => Except.error e
      | Except.ok line => Except.ok (source, line)) sourceUniverse with
  | Except.error e => Except.error e
  | Except.ok source_lines =>
    match mapME (fun sl =>
        match sort_line sl.2 (some (buildCleaner real_names)) (some buildSorter) with
        | Except.error e => Except.error e
        | Except.ok r => Except.ok (sl.1, r)) source_lines with
    | Except.error e => Except.error e
    | Except.ok sorted_source_lines =>
      let tools := sorted_source_lines.map (fun p => (p.1, p.2.1))
      let non_include_paths := sorted_source_lines.map (fun p => (p.1, p.2.2.1))
      let include_paths := sorted_source_lines.map (fun p => (p.1, includePaths p.2.2.2))
      Except.ok (tools, include_paths, non_include_paths)

/-- The `cleaner` closure of `link_tokens`: drop `-o` and its argument, then
the per-source object names. -/
def linkCleaner (object_names : List String) (items : List String) : List String :=
  filter_by_filenames object_names
    (filter_by_flags [("-o", FlagCheck.const true)] items false) false

/-- The pattern set of `link_tokens.link_sorter`. -/
def linkablePatterns : List String :=
  ["\\.o$", "\\.a$", "^-l", "--start-group$", "--end-group$"]

/-- `miner.link_tokens`: extract (linker, link flags, link objects, link
libraries) from the link line. -/
def link_tokens (stages : Stages) (sources : List (Source × String)) :
    Except PyError (String × List String × List String × List String) :=
  let object_names := (real_source_names sources).map (fun p => p.2 ++ ".o")
  match identify_link_line stages object_names with
  | Except.error e => Except.error e
  | Except.ok link_line =>
    match sort_line link_line (some (linkCleaner object_names))
        (some (fun tokens negate => filter_by_filenames linkablePatterns tokens negate)) with
    | Except.error e => Except.error e
    | Except.ok lfl =>
      let link_objects := filter_by_filenames ["\\.o$"] lfl.2.2 true
      let link_libraries :=
        filter_by_filenames ["\\.a$", "^-l", "--start-group$", "--end-group$"] lfl.2.2 true
      Except.ok (lfl.1, lfl.2.1, link_objects, link_libraries)

/-- Python `list.index`: index of the first occurrence, `ValueError` if
absent. -/
def pyListIndex (l : List String) (x : String) : Except PyError Nat :=
  match l with
  | [] => Except.error (PyError.valueError ("'" ++ x ++ "' is not in list"))
  | y :: ys =>
    if y = x then Except.ok 0
    else
      match pyListIndex ys x with
      | Except.error e => Except.error e
      | Except.ok i => Except.ok (i + 1)

/-- `miner.post_link_lines`: every LINK-stage line after the identified link
line. -/
def post_link_lines (stages : Stages) (sources : List (Source × String)) :
    Except PyError (List String) :=
  let object_names := (real_source_names sources).map (fun p => p.2 ++ ".o")
  match identify_link_line stages object_names with
  | Except.error e => Except.error e
  | Except.ok link_line =>
    let stage_lines := stagesGet stages Stage.LINK
    match pyListIndex stage_lines link_line with
    | Except.error e => Except.error e
    | Except.ok i => Except.ok (stage_lines.drop (i + 1))

/-! ## `parse.py` -/

/-- Python list slice `l[start:stop]` with a non-negative `stop` already
resolved (a negative `stop` is resolved by the caller). -/
def pySlice (l : List String) (start stop : Nat) : List String :=
  (l.drop start).take (stop - start)

/-- `parse.lines_between`: the lines strictly between the first occurrence of
`start_phrase` and the stop index.  With no `end_phrase` the stop index is the
Python slice endpoint `-1`, i.e. `len - 1`: the last line of the log is
excluded.  An absent phrase raises `list.index`'s `ValueError`. -/
def lines_between (output_lines : List String) (start_phrase : String)
    (end_phrase : Option String) : Except PyError (List String) :=
  match pyListIndex output_lines start_phrase with
  | Except.error e => Except.error e
  | Except.ok start_index =>
    match end_phrase with
    | none => Except.ok (pySlice output_lines (start_index + 1) (output_lines.length - 1))
    | some e =>
      match pyListIndex output_lines e with
      | Except.error err => Except.error err
      | Except.ok stop_index => Except.ok (pySlice output_lines (start_index + 1) stop_index)

/-- The token filter of `parse_compilation_commands.filter_function`: not
`-o`, not `-c`, and not ending in the input or output filename. -/
def compileFilterFun (filename : String) (item : String) : Bool :=
  !(item == "-o") && !strEndsWith item filename && !strEndsWith item (filename ++ ".o") &&
    !(item == "-c")

/-- Python `shell_split[:1] + shell_split[2:-3]`: the `expected` side of the
assertion in `parse_compilation_commands`. -/
def expectedCommandValues (shell_split : List String) : List String :=
  shell_split.take 1 ++ (shell_split.drop 2).take (shell_split.length - 5)

/-- `parse.parse_compilation_commands`: for each (type, path) of the mapping,
find a compilation line containing `{filename}.o`, shell-split it, filter out
`-c`, `-o` and the input/output filenames, assert the result equals
`shell_split[:1] + shell_split[2:-3]`, and map the type to it.  The Python
guard `if not matching_lines` tests a `filter` object, which is always truthy,
so the only failure on zero matches is the `IndexError` of `list(...)[0]`. -/
def parse_compilation_commands (output_lines : List String)
    (mapping : List (String × String)) : Except PyError (List (String × List String)) :=
  match lines_between output_lines "Compiling sketch..." (some "Compiling libraries...") with
  | Except.error e => Except.error e
  | Except.ok compilation_lines =>
    mapME (fun tp =>
      let filename := pathName tp.2
      match compilation_lines.filter (fun l => strContains l (filename ++ ".o")) with
      | [] => Except.error PyError.indexError
      | m :: _ =>
        match shlex_split_exc m with
        | Except.error e => Except.error e
        | Except.ok shell_split =>
          let necessary := shell_split.filter (compileFilterFun filename)
          if necessary = expectedCommandValues shell_split then Except.ok (tp.1, necessary)
          else Except.error
            (PyError.assertionError "Necessary arguments are usually all but the last 3"))
      mapping

/-- Split a character list at `/`. -/
def splitSlash (cur : List Char) : List Char → List (List Char)
  | [] => [cur]
  | c :: cs => if c = '/' then cur :: splitSlash [] cs else splitSlash (cur ++ [c]) cs

/-- Join components with `/`. -/
def joinSlash : List (List Char) → List Char
  | [] => []
  | [c] => c
  | c :: cs => c ++ '/' :: joinSlash cs

/-- `str(Path(p).parent.parent)` — approximation that drops the last two path
components (`.` when nothing remains).  No claim exercises this function's
output: it only feeds the final token filter of `parse_linker_commands`. -/
def pathParentParentStr (p : String) : String :=
  match ((splitSlash [] p.data).dropLast).dropLast with
  | [] => "."
  | comps => String.mk (joinSlash comps)

/-- `parse.parse_linker_commands`: slice the log after the
`Linking everything together...` marker, shell-split the first line, locate
the `core.a` token, and filter output/input specifiers from the link line.
As in the compilation parser, `if not core_library` tests a truthy `filter`
object, so an absent `core.a` surfaces as `IndexError`. -/
def parse_linker_commands (output_lines : List String) :
    Except PyError (String × List String) :=
  match lines_between output_lines "Linking everything together..." none with
  | Except.error e => Except.error e
  | Except.ok linking_lines =>
    match linking_lines with
    | [] => Except.error (PyError.genericExc "Failed to find linking lines")
    | l0 :: _ =>
      match shlex_split_exc l0 with
      | Except.error e => Except.error e
      | Except.ok linker_shell_split =>
        match linker_shell_split.filter (fun item => strEndsWith item "core.a") with
        | [] => Except.error PyError.indexError
        | core_path :: _ =>
          let keep := fun item =>
            !(item == "-o") && !strEndsWith item "ino.elf" && !strEndsWith item ".o" &&
              !strEndsWith item "core.a" && !strEndsWith item (pathParentParentStr core_path)
          Except.ok (core_path, linker_shell_split.filter keep)

/-- True iff the computation failed with `MissingStageException`. -/
def isMissingStageError {α : Type} : Except PyError α → Bool
  | Except.error (PyError.missingStage _) => true
  | _ => false

/-! ## Partition helpers

To state that a filter's kept/dropped outputs partition the input at the
original indices, we use a Boolean decision list: `select` picks the elements
whose decision equals `b`, and `interleave` re-merges two such selections at
the original indices. -/

/-- The elements whose decision is `b`, in order. -/
def select (b : Bool) : List Bool → List String → List String
  | d :: ds, x :: xs => if d == b then x :: select b ds xs else select b ds xs
  | _, _ => []

/-- Merge back: take from the first list where the decision is `true`, from
the second where it is `false`. -/
def interleave : List Bool → List String → List String → List String
  | true :: ds, x :: xs, ys => x :: interleave ds xs ys
  | false :: ds, xs, y :: ys => y :: interleave ds xs ys
  | _, _, _ => []

/-! ## Concrete scenarios used by the claims -/

/-- The stages map of the spec's compile-recipe scenario: one COMPILATION line
ending in the source filename. -/
def c1Stages : Stages := fun s =>
  match s with
  | Stage.COMPILATION =>
    some ["avr-gcc -c -o special_input_file.c.o -Iinclude1 -Iinclude2 special_input_file.c"]
  | _ => none

/-- The sources map of the compile-recipe scenario: the C entry is a file
named `special_input_file.c`. -/
def c1Sources : List (Source × String) := [(Source.C, "special_input_file.c")]

/-- The stages map of the spec's link-recipe scenario: the link line followed
by one post-link line. -/
def c2Stages : Stages := fun s =>
  match s with
  | Stage.LINK =>
    some ["avr-gcc -o sketch.ino.elf a.o b.o core.a -lm --start-group --end-group",
          "avr-objcopy -O ihex sketch.ino.elf sketch.hex"]
  | _ => none

/-- Sources whose per-source object names are `a.o` and `b.o`. -/
def c2Sources : List (Source × String) := [(Source.C, "a"), (Source.CPP, "b")]

/-- A four-source compilation stage whose C line carries the include token
`-Ifoo-Ibar` (the path itself contains `-I`); every line has a trailing space
so that the `[ |$]` locate pattern can match. -/
def c9Stages : Stages := fun s =>
  match s with
  | Stage.COMPILATION =>
    some ["g -c -o f.S.o f.S ",
          "g -c -o f.c.o -Ifoo-Ibar f.c ",
          "g -c -o f.cpp.o f.cpp ",
          "g -c -o sk.ino.cpp.o sk.ino.cpp "]
  | _ => none

/-- One synthetic file per source kind (sketch `sk.ino`). -/
def c9Sources : List (Source × String) :=
  [(Source.S, "f.S"), (Source.C, "f.c"), (Source.CPP, "f.cpp"), (Source.INO, "sk.ino")]

/-- A log for the compile-command parser: one compilation line between the two
markers. -/
def c8Lines : List String :=
  ["Compiling sketch...", "avr-gcc -c -Iinc -o f.c.o f.c", "Compiling libraries...", "end"]

/-- The mapping for the compile-command parser scenario. -/
def c8Mapping : List (String × String) := [("c", "f.c")]

/-- A CORE stage with two matching lines, a LINK stage with none: concrete
inputs for the `identify_line` contract. -/
def c4Stages : Stages := fun s =>
  match s with
  | Stage.CORE => some ["m1", "m2"]
  | _ => none

/-- A CORE stage with exactly one matching line. -/
def c4SingleStages : Stages := fun s =>
  match s with
  | Stage.CORE => some ["m1", "other"]
  | _ => none

/-- A CORE stage holding two lines that both match `core\.a`. -/
def c10Stages : Stages := fun s =>
  match s with
  | Stage.CORE => some ["ar rcs /tmp/cache/core/core.a x.o", "ar rcs /tmp/cache/core/core.a y.o"]
  | _ => none

/-! ## Lemmas: the two filters produce complementary, order-preserving
partitions -/

theorem select_sublist (b : Bool) : ∀ (ds : List Bool) (xs : List String),
    (select b ds xs).Sublist xs
  | [], xs => by simp [select]
  | _ :: _, [] => by simp [select]
  | d :: ds, x :: xs => by
    by_cases h : d = b
    · simpa [select, h] using (select_sublist b ds xs).cons₂ x
    · simpa [select, h] using (select_sublist b ds xs).cons x

theorem interleave_select : ∀ (ds : List Bool) (xs : List String),
    ds.length = xs.length →
    interleave ds (select true ds xs) (select false ds xs) = xs
  | [], [], _ => rfl
  | [], _ :: _, h => by simp at h
  | _ :: _, [], h => by simp at h
  | d :: ds, x :: xs, h => by
    have hlen : ds.length = xs.length := by simpa using h
    cases d
    · simpa [select, interleave] using interleave_select ds xs hlen
    · simpa [select, interleave] using interleave_select ds xs hlen

theorem count_select (y : String) : ∀ (ds : List Bool) (xs : List String),
    ds.length = xs.length →
    (select true ds xs).count y + (select false ds xs).count y = xs.count y
  | [], [], _ => rfl
  | [], _ :: _, h => by simp at h
  | _ :: _, [], h => by simp at h
  | d :: ds, x :: xs, h => by
    have hlen : ds.length = xs.length := by simpa using h
    have ih := count_select y ds xs hlen
    cases d <;> simp [select, List.count_cons, ih.symm] <;> omega

theorem fbfAux_eq_select (flags : FlagTable) (negate : Bool) :
    ∀ (prev : String) (ts : List String),
    fbfAux flags negate prev ts = select negate (flagDecisionsAux flags prev ts) ts
  | _, [] => by simp [fbfAux, flagDecisionsAux, select]
  | prev, t :: ts => by
    have ih := fbfAux_eq_select flags negate t ts
    cases hv : filtererVal flags t prev <;> cases negate <;>
      simp [fbfAux, flagDecisionsAux, select, hv, ih]

theorem flagDecisionsAux_length (flags : FlagTable) :
    ∀ (prev : String) (ts : List String), (flagDecisionsAux flags prev ts).length = ts.length
  | _, [] => rfl
  | _, t :: ts => by simp [flagDecisionsAux, flagDecisionsAux_length flags t ts]

theorem filter_by_flags_eq_select (flags : FlagTable) (negate : Bool) (tokens : List String) :
    filter_by_flags flags tokens negate = select negate (flagDecisions flags tokens) tokens := by
  cases tokens with
  | nil => simp [filter_by_flags, flagDecisions, select]
  | cons t ts => simpa [filter_by_flags, flagDecisions] using fbfAux_eq_select flags negate t (t :: ts)

theorem flagDecisions_length (flags : FlagTable) (tokens : List String) :
    (flagDecisions flags tokens).length = tokens.length := by
  cases tokens with
  | nil => rfl
  | cons t ts => simpa [flagDecisions] using flagDecisionsAux_length flags t (t :: ts)

theorem filter_eq_select_true (m : String → Bool) : ∀ (xs : List String),
    xs.filter m = select true (xs.map m) xs
  | [] => rfl
  | x :: xs => by
    cases h : m x <;> simp [List.filter_cons, select, h, filter_eq_select_true m xs]

theorem filter_eq_select_false (m : String → Bool) : ∀ (xs : List String),
    xs.filter (fun x => !m x) = select false (xs.map m) xs
  | [] => rfl
  | x :: xs => by
    cases h : m x <;> simp [List.filter_cons, select, h, filter_eq_select_false m xs]

theorem filter_by_filenames_false_eq (pats : List String) (t : List String) :
    filter_by_filenames pats t false = select false (t.map (match_any pats)) t := by
  simpa [filter_by_filenames] using filter_eq_select_false (match_any pats) t

theorem filter_by_filenames_true_eq (pats : List String) (t : List String) :
    filter_by_filenames pats t true = select true (t.map (match_any pats)) t := by
  have : (fun token => !(if true then !match_any pats token else match_any pats token)) =
      fun token => match_any pats token := by
    funext token
    cases h : match_any pats token <;> simp [h]
  simpa [filter_by_filenames, this] using filter_eq_select_true (match_any pats) t

/-- `str.replace` with a pattern that does not occur leaves the string
unchanged. -/
theorem replaceDashI_no_occurrence : ∀ (l : List Char), subList ['-', 'I'] l = false →
    replaceDashI l = l
  | [], _ => rfl
  | [_], _ => rfl
  | c :: d :: cs, h => by
    have h' := h
    simp only [subList, Bool.or_eq_false_iff] at h'
    obtain ⟨h1, h2⟩ := h'
    have hcond : (c == '-' && d == 'I') = false := by
      by_cases hc : c = '-'
      · by_cases hd : d = 'I'
        · subst hc; subst hd; simp [List.isPrefixOf] at h1
        · simp [hd]
      · simp [hc]
    have hrec : subList ['-', 'I'] (d :: cs) = false := by
      simp [subList, h2.1, h2.2]
    simp [replaceDashI, hcond, replaceDashI_no_occurrence (d :: cs) hrec]

/-- `list.index` on a list not containing the element raises `ValueError`. -/
theorem pyListIndex_not_found (x : String) : ∀ (l : List String), x ∉ l →
    pyListIndex l x = Except.error (PyError.valueError ("'" ++ x ++ "' is not in list"))
  | [], _ => rfl
  | y :: ys, h => by
    have hy : ¬ y = x := fun e => h (e ▸ List.mem_cons_self y ys)
    have hys := pyListIndex_not_found x ys (fun m => h (List.mem_cons_of_mem y m))
    simp [pyListIndex, hy, hys]

/-! ## The claims -/

/-- C3: for every flag table, pattern set and token list, the tokens kept with
`negate=False` and those kept with `negate=True` are complementary,
order-preserving partitions of the input, whose interleaving at the original
indices restores the input; the input itself is a value and is never mutated
(both functions build new lists). -/
theorem C3_filter_partitions (flags : FlagTable) (pats : List String) (t : List String) :
    (filter_by_flags flags t false).Sublist t ∧
    (filter_by_flags flags t true).Sublist t ∧
    interleave (flagDecisions flags t) (filter_by_flags flags t true)
      (filter_by_flags flags t false) = t ∧
    (∀ x, (filter_by_flags flags t false).count x + (filter_by_flags flags t true).count x
      = t.count x) ∧
    (filter_by_filenames pats t false).Sublist t ∧
    (filter_by_filenames pats t true).Sublist t ∧
    interleave (t.map (match_any pats)) (filter_by_filenames pats t true)
      (filter_by_filenames pats t false) = t ∧
    (∀ x, (filter_by_filenames pats t false).count x + (filter_by_filenames pats t true).count x
      = t.count x) := by
  have hlen := flagDecisions_length flags t
  have hmlen : (t.map (match_any pats)).length = t.length := by simp
  refine ⟨?_, ?_, ?_, ?_, ?_, ?_, ?_, ?_⟩
  · rw [filter_by_flags_eq_select]; exact select_sublist false _ t
  · rw [filter_by_flags_eq_select]; exact select_sublist true _ t
  · rw [filter_by_flags_eq_select, filter_by_flags_eq_select]
    exact interleave_select _ t hlen
  · intro x
    rw [filter_by_flags_eq_select, filter_by_flags_eq_select, Nat.add_comm]
    exact count_select x _ t hlen
  · rw [filter_by_filenames_false_eq]; exact select_sublist false _ t
  · rw [filter_by_filenames_true_eq]; exact select_sublist true _ t
  · rw [filter_by_filenames_true_eq, filter_by_filenames_false_eq]
    exact interleave_select _ t hmlen
  · intro x
    rw [filter_by_filenames_false_eq, filter_by_filenames_true_eq, Nat.add_comm]
    exact count_select x _ t hmlen

/-- C4: `identify_line` raises `MissingStageException(stage)` when no line of
the stage matches (also when the stage is absent, which `stages.get(stage, [])`
makes indistinguishable from empty), raises `MultipleInvocationException` when
`single` and at least two lines match, and returns the line when exactly one
matches. -/
theorem C4_identify_line_contract (stage : Stage) (stages : Stages) (mf : String → Bool)
    (single : Bool) :
    ((stagesGet stages stage).filter mf = [] →
      identify_line stage stages mf single = Except.error (PyError.missingStage stage)) ∧
    (single = true → 2 ≤ ((stagesGet stages stage).filter mf).length →
      identify_line stage stages mf single = Except.error PyError.multipleInvocation) ∧
    (∀ l, (stagesGet stages stage).filter mf = [l] →
      identify_line stage stages mf single = Except.ok l) := by
  refine ⟨?_, ?_, ?_⟩
  · intro h
    simp [identify_line, h]
  · intro hs h
    cases hm : (stagesGet stages stage).filter mf with
    | nil => rw [hm] at h; simp at h
    | cons m ms =>
      rw [hm] at h
      have hlen : 0 < ms.length := by
        have := h
        simp [List.length_cons] at this
        omega
      simp [identify_line, hm, hs, hlen]
  · intro l h
    simp [identify_line, h]

theorem C4_identify_line_contract_witness :
    identify_line Stage.CORE c4Stages (fun l => strContains l "m") true
      = Except.error PyError.multipleInvocation ∧
    identify_line Stage.LINK c4Stages (fun l => strContains l "m") true
      = Except.error (PyError.missingStage Stage.LINK) ∧
    identify_line Stage.CORE c4SingleStages (fun l => strContains l "m1") true
      = Except.ok "m1" :=
  ⟨(C4_identify_line_contract Stage.CORE c4Stages (fun l => strContains l "m") true).2.1
      rfl (by decide),
   (C4_identify_line_contract Stage.LINK c4Stages (fun l => strContains l "m") true).1
      (by decide),
   (C4_identify_line_contract Stage.CORE c4SingleStages (fun l => strContains l "m1") true).2.2
      "m1" (by decide)⟩

/-- C10: with `single=False`, `identify_line` returns the earliest matching
line whenever at least one matches and can never raise the ambiguity error;
hence `identify_archive_line` returns the first CORE-stage line matching
`core\.a` even when several exist. -/
theorem C10_identify_line_first (stage : Stage) (stages : Stages) (mf : String → Bool)
    (stagesC : Stages) :
    (∀ l ms, (stagesGet stages stage).filter mf = l :: ms →
      identify_line stage stages mf false = Except.ok l) ∧
    identify_line stage stages mf false ≠ Except.error PyError.multipleInvocation ∧
    (∀ l ms, (stagesGet stagesC Stage.CORE).filter (match_all ["core\\.a"]) = l :: ms →
      identify_archive_line stagesC = Except.ok l) := by
  refine ⟨?_, ?_, ?_⟩
  · intro l ms h
    simp [identify_line, h]
  · cases hm : (stagesGet stages stage).filter mf with
    | nil => simp [identify_line, hm]
    | cons m ms => simp [identify_line, hm]
  · intro l ms h
    simp [identify_archive_line, identify_line, h]

theorem C10_identify_line_first_witness :
    identify_line Stage.CORE c10Stages (match_all ["core\\.a"]) false
      = Except.ok "ar rcs /tmp/cache/core/core.a x.o" ∧
    identify_archive_line c10Stages = Except.ok "ar rcs /tmp/cache/core/core.a x.o" :=
  ⟨(C10_identify_line_first Stage.CORE c10Stages (match_all ["core\\.a"]) c10Stages).1
      "ar rcs /tmp/cache/core/core.a x.o" ["ar rcs /tmp/cache/core/core.a y.o"] (by decide),
   (C10_identify_line_first Stage.CORE c10Stages (match_all ["core\\.a"]) c10Stages).2.2
      "ar rcs /tmp/cache/core/core.a x.o" ["ar rcs /tmp/cache/core/core.a y.o"] (by decide)⟩

/-- C6: with the default (`pass_all`) filters, `sort_line` returns the head
token, the remaining tokens and an empty third component — so head consed
onto rest is exactly the tokenization — and raises the no-tokens error when
the (cleaned) token sequence is empty. -/
theorem C6_sort_line_identity (L : String) (ts : List String) (t : String)
    (rest : List String) (h : safe_split L false = Except.ok ts) :
    (ts = t :: rest → sort_line L none none = Except.ok (t, rest, [])) ∧
    (ts = [] → sort_line L none none
      = Except.error (PyError.arduinoCLI "No tokens available")) := by
  constructor
  · intro hts
    simp [sort_line, h, hts, pass_all]
  · intro hts
    simp [sort_line, h, hts, pass_all]

theorem C6_sort_line_identity_witness :
    sort_line "gcc -c a.c" none none = Except.ok ("gcc", ["-c", "a.c"], []) ∧
    sort_line "" none none = Except.error (PyError.arduinoCLI "No tokens available") :=
  ⟨(C6_sort_line_identity "gcc -c a.c" ["gcc", "-c", "a.c"] "gcc" ["-c", "a.c"]
      (by decide)).1 rfl,
   (C6_sort_line_identity "" [] "x" [] (by decide)).2 rfl⟩

/-- C7 fails as stated: with no end phrase, `lines_between` slices
`output_lines[start+1 : -1]`, which excludes the final line of the log.  On
`["S", "a", "b"]` with start phrase `S` the claim predicts `["a", "b"]` but
the code returns `["a"]`. -/
theorem C7_counterexample :
    lines_between ["S", "a", "b"] "S" none = Except.ok ["a"] ∧
    lines_between ["S", "a", "b"] "S" none ≠ Except.ok ["a", "b"] := by
  constructor
  · decide
  · decide

/-- C7 amended: with no end phrase, `lines_between` returns the lines strictly
after the first occurrence of the start phrase up to but excluding the last
line of the log. -/
theorem C7_lines_between_no_end (lines : List String) (start : String) (i : Nat)
    (h : pyListIndex lines start = Except.ok i) :
    lines_between lines start none = Except.ok ((lines.drop (i + 1)).dropLast) := by
  simp only [lines_between, h, pySlice]
  congr 1
  rw [List.dropLast_eq_take, List.length_drop]
  congr 1
  omega

theorem C7_lines_between_no_end_witness :
    lines_between ["S", "a", "b"] "S" none = Except.ok ((["S", "a", "b"].drop 1).dropLast) :=
  C7_lines_between_no_end ["S", "a", "b"] "S" 0 (by decide)

/-- C5 fails as stated: when the `Linking everything together...` marker is
absent, `parse_linker_commands` propagates the generic `ValueError` of
`list.index`; `parse.py` never converts it into a domain missing-stage
error. -/
theorem C5_counterexample :
    parse_linker_commands ["a", "b"]
      = Except.error (PyError.valueError "'Linking everything together...' is not in list") ∧
    isMissingStageError (parse_linker_commands ["a", "b"]) = false := by
  constructor
  · decide
  · decide

/-- C5 amended: for every log in which the marker line does not occur, link
extraction fails with the generic `ValueError` lookup error of `list.index`. -/
theorem C5_missing_marker (lines : List String)
    (h : "Linking everything together..." ∉ lines) :
    parse_linker_commands lines
      = Except.error
          (PyError.valueError "'Linking everything together...' is not in list") := by
  simp [parse_linker_commands, lines_between, pyListIndex_not_found _ lines h]

theorem C5_missing_marker_witness :
    parse_linker_commands ["x", "y"]
      = Except.error
          (PyError.valueError "'Linking everything together...' is not in list") :=
  C5_missing_marker ["x", "y"] (by decide)

/-- C8 fails as stated: the `expected` side of the consistency assertion is
`shell_split[:1] + shell_split[2:-3]`, which also excludes the token at index
1, not merely the last three.  On the line `avr-gcc -c -Iinc -o f.c.o f.c` the
surviving tokens are `[avr-gcc, -Iinc]`, which differ from all-but-last-three
`[avr-gcc, -c, -Iinc]`, yet the function returns normally. -/
theorem C8_counterexample :
    parse_compilation_commands c8Lines c8Mapping = Except.ok [("c", ["avr-gcc", "-Iinc"])] ∧
    shlex_split_exc "avr-gcc -c -Iinc -o f.c.o f.c"
      = Except.ok ["avr-gcc", "-c", "-Iinc", "-o", "f.c.o", "f.c"] ∧
    (["avr-gcc", "-c", "-Iinc", "-o", "f.c.o", "f.c"].take (6 - 3)
      ≠ (["avr-gcc", "-Iinc"] : List String)) := by
  refine ⟨by decide, by decide, by decide⟩

/-- C8 amended: for a single-entry mapping, `parse_compilation_commands`
returns normally exactly when the tokens surviving the clean filter equal
`shell_split[:1] + shell_split[2:-3]` (the first token plus the third through
the fourth-from-last: index 1 is excluded along with the last three);
on any disagreement it fails with the assertion error rather than returning
either derivation. -/
theorem C8_assert_shape (output_lines : List String) (ftype path : String)
    (cl : List String)
    (hcl : lines_between output_lines "Compiling sketch..." (some "Compiling libraries...")
      = Except.ok cl)
    (m0 : String) (ms : List String)
    (hm : cl.filter (fun l => strContains l (pathName path ++ ".o")) = m0 :: ms)
    (ts : List String) (hts : shlex_split_exc m0 = Except.ok ts) :
    (ts.filter (compileFilterFun (pathName path)) = expectedCommandValues ts →
      parse_compilation_commands output_lines [(ftype, path)]
        = Except.ok [(ftype, ts.filter (compileFilterFun (pathName path)))]) ∧
    (ts.filter (compileFilterFun (pathName path)) ≠ expectedCommandValues ts →
      parse_compilation_commands output_lines [(ftype, path)]
        = Except.error
            (PyError.assertionError "Necessary arguments are usually all but the last 3")) := by
  constructor
  · intro he
    simp [parse_compilation_commands, hcl, mapME, hm, hts, he]
  · intro hne
    simp [parse_compilation_commands, hcl, mapME, hm, hts, hne]

theorem C8_assert_shape_witness :
    parse_compilation_commands c8Lines [("c", "f.c")]
      = Except.ok [("c", ["avr-gcc", "-c", "-Iinc", "-o", "f.c.o", "f.c"].filter
          (compileFilterFun (pathName "f.c")))] :=
  (C8_assert_shape c8Lines "c" "f.c" ["avr-gcc -c -Iinc -o f.c.o f.c"] (by decide)
    "avr-gcc -c -Iinc -o f.c.o f.c" [] (by decide)
    ["avr-gcc", "-c", "-Iinc", "-o", "f.c.o", "f.c"] (by decide)).1 (by decide)

/-- C1: the claim describes the intended behaviour, but the locate pattern is
`f'{filename}[ |$]'`, a character class of the literal characters space, pipe
and dollar — not an alternation of space and end-of-line.  The scenario line
ends with `special_input_file.c`, so no character follows the filename, the
pattern never matches, `identify_line` finds no matching line, and
`build_tokens` raises `MissingStageException(COMPILATION)` instead of
returning the claimed `(avr-gcc, [include1, include2], [])`. -/
theorem C1_locate_fails :
    identify_line Stage.COMPILATION c1Stages
      (match_all ["special_input_file.c[ |$]"]) true
      = Except.error (PyError.missingStage Stage.COMPILATION) ∧
    build_tokens c1Stages c1Sources
      = Except.error (PyError.missingStage Stage.COMPILATION) := by
  constructor
  · decide
  · decide

/-- C2 fails as stated: `link_tokens` cleans the per-source objects `a.o` and
`b.o` out of the link line before classifying linkables, so the returned link
objects are `[]`, not `[a.o, b.o]`; linker and libraries are as claimed. -/
theorem C2_counterexample :
    link_tokens c2Stages c2Sources
      = Except.ok ("avr-gcc", [], [], ["core.a", "-lm", "--start-group", "--end-group"]) ∧
    link_tokens c2Stages c2Sources
      ≠ Except.ok ("avr-gcc", [], ["a.o", "b.o"],
          ["core.a", "-lm", "--start-group", "--end-group"]) := by
  constructor
  · decide
  · decide

/-- C2 amended: on the scenario, `link_tokens` returns linker `avr-gcc`, link
flags `[]`, link objects `[]` (the per-source object filenames are removed by
the cleaner; only non-source `.o` tokens could remain), and link libraries
`[core.a, -lm, --start-group, --end-group]`; `post_link_lines` returns exactly
the single `avr-objcopy` line. -/
theorem C2_link_extraction :
    link_tokens c2Stages c2Sources
      = Except.ok ("avr-gcc", [], [], ["core.a", "-lm", "--start-group", "--end-group"]) ∧
    post_link_lines c2Stages c2Sources
      = Except.ok ["avr-objcopy -O ihex sketch.ino.elf sketch.hex"] := by
  constructor
  · decide
  · decide

/-- C9 fails as stated: the include-token transformation is
`path.replace('-I', '')`, which removes every occurrence of `-I`, not only the
leading marker.  With include token `-Ifoo-Ibar` (path `foo-Ibar`) the C
include path comes back as `foobar`, not `foo-Ibar`. -/
theorem C9_counterexample :
    build_tokens c9Stages c9Sources
      = Except.ok ([(Source.S, "g"), (Source.C, "g"), (Source.CPP, "g"), (Source.INO, "g")],
          [(Source.S, []), (Source.C, ["foobar"]), (Source.CPP, []), (Source.INO, [])],
          [(Source.S, []), (Source.C, []), (Source.CPP, []), (Source.INO, [])]) ∧
    (["foobar"] : List String) ≠ ["foo-Ibar"] := by
  constructor
  · decide
  · decide

/-- C9 amended: the include-path comprehension of `build_tokens` removes every
occurrence of `-I` from an include token; when the path after the leading `-I`
marker contains no further `-I` (and is non-empty, so the bare-`-I` guard does
not discard the token), exactly the leading marker is stripped and the path is
returned unchanged. -/
theorem C9_strip_only_leading (p : String) (h1 : p ≠ "")
    (h2 : strContains p "-I" = false) :
    includePaths ["-I" ++ p] = [p] := by
  have hdata : ("-I" ++ p).data = '-' :: 'I' :: p.data := rfl
  have hne : ¬("-I" ++ p) = "-I" := by
    intro he
    apply h1
    have hd := congrArg String.data he
    rw [hdata] at hd
    have hnil : p.data = [] := by simpa using hd
    cases p with
    | mk l =>
      have hl : l = [] := by simpa using hnil
      rw [hl]
  have hno : subList ['-', 'I'] p.data = false := h2
  simp [includePaths, hne, pythonReplaceDashI, hdata, replaceDashI,
    replaceDashI_no_occurrence p.data hno]

theorem C9_strip_only_leading_witness : includePaths ["-I" ++ "include1"] = ["include1"] :=
  C9_strip_only_leading "include1" (by decide) (by decide)
